import Mathlib

/-!
Verification of the ARMv7 VMM (repos/os/src/server/vmm/main.cc) against its
natural-language specification.  Each numbered claim from the specification is
formalised over a shallow embedding of the VMM's data structures and handlers.
Machine integers are modelled as `Nat` with explicit `% 2^w` / masking at the
points where the C++ code converts or truncates.
-/

namespace Vmm

/-! ## Guest CPU state: banked-register accessor (claim C1)

`State::Psr::mode_offset` (main.cc:67-77) maps the CPSR mode bits to an index
into the banked `mode[]` array, returning `-1` for modes without banking.
The `Mode_state::Mode` enum values come from the Genode header
`cpu/cpu_state.h`, which is not part of the sources under verification. -/

/-- Modelled from the spec: the `Mode_state::Mode` indices of the banked
register array (header `cpu/cpu_state.h` missing from the sources).  The spec
gives the map FIQ→0, IRQ→1, SVC→2, ABT→3, UND→4. -/
def ModeState.fiq : Int := 0

/-- Modelled from the spec: banked index of IRQ mode. -/
def ModeState.irq : Int := 1

/-- Modelled from the spec: banked index of SVC mode. -/
def ModeState.svc : Int := 2

/-- Modelled from the spec: banked index of ABT mode. -/
def ModeState.abort : Int := 3

/-- Modelled from the spec: banked index of UND mode. -/
def ModeState.und : Int := 4

/-- `State::Psr::mode_offset` (main.cc:67-77): switch on the CPSR `Mode`
bitfield (bits 0..4); source mode numbers FIQ=17, IRQ=18, SVC=19, ABORT=23,
UND=27; every other mode yields `-1`.  Return type is C `int`. -/
def mode_offset (cpsr : Nat) : Int :=
  match cpsr &&& 31 with
  | 17 => ModeState.fiq
  | 18 => ModeState.irq
  | 19 => ModeState.svc
  | 23 => ModeState.abort
  | 27 => ModeState.und
  | _  => -1

/-- Which slot of the guest CPU state the accessor `State::r` resolves to:
the top-level `sp`/`lr`, a banked `mode[m].sp`/`mode[m].lr`, or a
general-purpose register `r[i]`. -/
inductive RegRef where
  | sp : RegRef
  | lr : RegRef
  | bankedSp (m : Nat) : RegRef
  | bankedLr (m : Nat) : RegRef
  | gp (i : Nat) : RegRef
deriving DecidableEq, Repr

/-- `State::r` (main.cc:80-88).  The source stores the result of
`mode_offset` in an `unsigned` local `mo` (C conversion: mod 2^32) and then
tests `mo < 0`, which on an unsigned value is always false.  The embedding
reproduces exactly that: `mo` is the unsigned conversion, and the guard is the
(vacuous) `mo < 0` comparison on `Nat`. -/
def State.r (cpsr : Nat) (i : Nat) : RegRef :=
  let mo : Nat := ((mode_offset cpsr) % (2 ^ 32 : Int)).toNat
  match i with
  | 13 => if mo < 0 then .sp else .bankedSp mo
  | 14 => if mo < 0 then .lr else .bankedLr mo
  | _  => .gp i

/-- Number of entries of the banked `mode[]` array (`Mode_state::MAX`,
iterated by `Vm::dump`, main.cc:250-258). -/
def modeStateMax : Nat := 5

/-- C1 (code_bug).  The claim says that for i ∈ {13,14} the accessor resolves
to the top-level sp/lr in every non-banked mode (including USR = 16 and
SYS = 31).  The code stores `mode_offset`'s result in an `unsigned` local, so
the `mo < 0` guard at main.cc:84-85 is always false: in USR mode the accessor
resolves to `mode[4294967295].sp`, an out-of-bounds access into the
five-element banked array, instead of the top-level `sp`.  The banked modes
themselves follow the spec's mode table. -/
theorem C1_banked_accessor_bug :
    State.r 16 13 = RegRef.bankedSp 4294967295 ∧
    State.r 31 14 = RegRef.bankedLr 4294967295 ∧
    modeStateMax ≤ 4294967295 ∧
    State.r 16 13 ≠ RegRef.sp ∧
    State.r 17 13 = RegRef.bankedSp 0 ∧
    State.r 18 13 = RegRef.bankedSp 1 ∧
    State.r 19 13 = RegRef.bankedSp 2 ∧
    State.r 23 13 = RegRef.bankedSp 3 ∧
    State.r 27 13 = RegRef.bankedSp 4 ∧
    State.r 16 5 = RegRef.gp 5 := by
  decide

/-! ## Virtual GIC (claims C2, C3, C4)

Embedding of `class Gic` (main.cc:632-901): the IRQ table, the four GICH list
registers mirrored in the shared CPU state (`gic_lr[4]`, `gic_elrsr0`,
`gic_misr`, `gic_eisr`, `timer_irq`) and the operations `inject_irq`,
`_inject_irq`, `_handle_eoi`, `_enable_irq`, `_disable_irq`.  Exceptions
(`Vm::Exception`) are modelled as an error component: each operation returns
the state holding all mutations performed up to the throw point, as the C++
code leaves them when the exception propagates. -/

/-- The exceptions thrown by the VMM (`Vm::Exception` with its distinct
messages) together with the spec's error taxonomy names. -/
inductive VmmError where
  | unknownInjection : VmmError
  | doubleInject : VmmError
  | listRegistersFull : VmmError
  | irqOutOfBounds : VmmError
  | unknownEnable : VmmError
  | noDeviceAtIpa : VmmError
  | wfeNotImplemented : VmmError
  | unknownHyperCall : VmmError
  | unknownTrap : VmmError
deriving DecidableEq, Repr

/-- Modelled from the spec: `Arm_v7::VT_TIMER_IRQ` (header
`drivers/defs/arm_v7.h` missing from the sources); the spec's scenarios fix
the virtual-timer IRQ at 27. -/
def timerIrqNum : Nat := 27

/-- `Gic::Irqs::MAX_IRQ` (main.cc:652). -/
def maxIrq : Nat := 256

/-- `State::NR_IRQ`, the number of GICH list registers.  The header defining
it is not in the sources; the spec (§3, §4.4) fixes N = 4, matching the four
`gic_lr` slots cleared by `Vm::start` (main.cc:208-211). -/
def nrLr : Nat := 4

/-- The vGIC state: the list-register view of the shared CPU state plus the
IRQ table of `class Gic`.  `lr`/`elrsr0`/`misr`/`eisr`/`timerIrq` are the
`gic_lr[4]`, `gic_elrsr0`, `gic_misr`, `gic_eisr` and `timer_irq` fields;
`cpuPending irq` is `_irqs[irq].cpu_state == PENDING`; `distrEnabled irq` is
`_irqs[irq].distr_state == ENABLED`; `hasDevice`/`eoi` are the
`device`/`eoi` members; `vmActive` is `Vm::_active`. -/
structure GicSt where
  lr : Fin 4 → Nat
  elrsr0 : Nat
  misr : Nat
  eisr : Nat
  timerIrq : Bool
  vmActive : Bool
  cpuPending : Nat → Bool
  distrEnabled : Nat → Bool
  eoi : Nat → Bool
  hasDevice : Nat → Bool

/-- `Gich_lr::Virt_id` (main.cc:678): bits 0..9 of a list register. -/
def virtId (v : Nat) : Nat := v &&& 1023

/-- The list-register value built by `Gic::_inject_irq` (main.cc:724-728):
virtual id = irq, physical id = `eoi ? 1<<9 : 0` (bits 10..19), priority 0,
state = pending `0b01` (bits 28..29).  Each `Bitfield::set` masks its
argument to the field width. -/
def mkLr (irq : Nat) (eoi : Bool) : Nat :=
  (irq &&& 1023) ||| (((if eoi then 512 else 0) &&& 1023) <<< 10) ||| (1 <<< 28)

/-- The C test `gic_elrsr0 & (1 << i)`: list register `j` is free. -/
def lrFree (s : GicSt) (j : Fin 4) : Bool := (s.elrsr0 &&& (1 <<< j.val)) != 0

/-- `Gic::_inject_irq` (main.cc:706-734).  Clears `timer_irq` for the timer
IRQ, scans the occupied list registers for a duplicate virtual id, then
writes the first free list register and clears its `elrsr0` bit; with no
free register it throws "IRQ queue full" after the `timer_irq` mutation. -/
def injectLow (irq : Nat) (eoi : Bool) (s : GicSt) : GicSt × Option VmmError :=
  let s := if irq == timerIrqNum then { s with timerIrq := false } else s
  if (List.finRange 4).any (fun j => !(lrFree s j) && (virtId (s.lr j) == irq)) then
    (s, none)
  else
    match (List.finRange 4).find? (fun j => lrFree s j) with
    | some j =>
        ({ s with elrsr0 := s.elrsr0 &&& (4294967295 ^^^ (1 <<< j.val)),
                  lr := Function.update s.lr j (mkLr irq eoi) }, none)
    | none => (s, some .listRegistersFull)

/-- `Gic::inject_irq` (main.cc:867-885).  Unregistered IRQ and double
injection throw before any mutation; with `eoi` the Irq goes PENDING; a
distributor-disabled IRQ is dropped with a warning after that; otherwise
`_inject_irq` runs and on success `_vm.interrupt()` re-activates the VCPU. -/
def injectIrq (irq : Nat) (s : GicSt) : GicSt × Option VmmError :=
  if !(s.hasDevice irq) then (s, some .unknownInjection)
  else if s.cpuPending irq then (s, some .doubleInject)
  else
    let s := if s.eoi irq then { s with cpuPending := Function.update s.cpuPending irq true } else s
    if !(s.distrEnabled irq) then (s, none)
    else
      match injectLow irq (s.eoi irq) s with
      | (s, none) => ({ s with vmActive := true }, none)
      | r => r

/-- `Gic::_enable_irq` (main.cc:736-749).  The owning devices override none
of the `irq_enabled` hooks, so the notification is a no-op. -/
def enableIrq (irq : Nat) (s : GicSt) : GicSt × Option VmmError :=
  if maxIrq < irq || !(s.hasDevice irq) then (s, some .unknownEnable)
  else if s.distrEnabled irq then (s, none)
  else
    let s := { s with distrEnabled := Function.update s.distrEnabled irq true }
    if irq == timerIrqNum then ({ s with timerIrq := true }, none) else (s, none)

/-- `Gic::_disable_irq` (main.cc:751-764).  `irq_disabled` hooks are likewise
no-ops. -/
def disableIrq (irq : Nat) (s : GicSt) : GicSt × Option VmmError :=
  if maxIrq < irq then (s, some .irqOutOfBounds)
  else if !(s.distrEnabled irq) then (s, none)
  else
    let s := { s with distrEnabled := Function.update s.distrEnabled irq false }
    if irq == timerIrqNum then ({ s with timerIrq := false }, none) else (s, none)

/-- One iteration of the `_handle_eoi` loop (main.cc:689-701) at list
register `j`: if bit `j` of `gic_eisr` is set, extract the virtual id, throw
"IRQ out of bounds" if it exceeds `MAX_IRQ`, else zero the list register,
set the `elrsr0` free bit, re-raise `timer_irq` for a still-enabled timer
IRQ, and mark the IRQ INACTIVE. -/
def eoiStep (j : Fin 4) (s : GicSt) : GicSt × Option VmmError :=
  if s.eisr &&& (1 <<< j.val) == 0 then (s, none)
  else
    let irq := virtId (s.lr j)
    if maxIrq < irq then (s, some .irqOutOfBounds)
    else
      let s := { s with lr := Function.update s.lr j 0,
                        elrsr0 := s.elrsr0 ||| (1 <<< j.val) }
      let s := if irq == timerIrqNum && s.distrEnabled timerIrqNum then
                 { s with timerIrq := true } else s
      ({ s with cpuPending := Function.update s.cpuPending irq false }, none)

/-- Sequencing of the throwing loop body: a thrown exception aborts the rest
of the loop, keeping the mutations made so far. -/
def bindE (r : GicSt × Option VmmError) (f : GicSt → GicSt × Option VmmError) :
    GicSt × Option VmmError :=
  match r with
  | (s, none) => f s
  | r => r

/-- The `for (i = 0; i < NR_IRQ; i++)` loop of `_handle_eoi`
(main.cc:689-701), as the sequential composition of `eoiStep` over the list
of visited indices. -/
def eoiLoop : List (Fin 4) → GicSt → GicSt × Option VmmError
  | [], s => (s, none)
  | j :: js, s => bindE (eoiStep j s) (eoiLoop js)

/-- `Gic::_handle_eoi` (main.cc:685-704): nothing happens unless
`gic_misr & 1`; then the loop over the four list registers runs, and
`gic_misr` is cleared at the end (unless the loop threw). -/
def handleEoi (s : GicSt) : GicSt × Option VmmError :=
  if s.misr &&& 1 == 0 then (s, none)
  else
    match eoiLoop [0, 1, 2, 3] s with
    | (s, none) => ({ s with misr := 0 }, none)
    | r => r

/-- `Gic::register_irq` (main.cc:861-865). -/
def registerIrq (irq : Nat) (eoiFlag : Bool) (s : GicSt) : GicSt :=
  { s with hasDevice := Function.update s.hasDevice irq true,
           eoi := Function.update s.eoi irq eoiFlag }

/-- The vGIC state after the `Gic` constructor (main.cc:768-779): SGIs 0..15
owned by the vGIC itself, everything INACTIVE/DISABLED, `eoi` false.  The
list-register fields hold the values established at `Vm::start`
(main.cc:205-211) with `gic_elrsr0 = 0b1111`; the code leaves `gic_elrsr0` to
the host, and the spec (§4.4) fixes its initial value as the low N bits
set. -/
def gicReset : GicSt where
  lr := fun _ => 0
  elrsr0 := 15
  misr := 0
  eisr := 0
  timerIrq := false
  vmActive := true
  cpuPending := fun _ => false
  distrEnabled := fun _ => false
  eoi := fun _ => false
  hasDevice := fun i => decide (i ≤ 15)

/-- The registrations performed during `Vmm` construction, in member order:
`Generic_timer` registers the virtual-timer IRQ with `eoi = true`
(main.cc:933), then `Pl011` registers its IRQ `u` (`Board::PL011_0_IRQ`,
whose numeric value comes from a header outside the sources) with
`eoi = false` (main.cc:1213). -/
def initGic (u : Nat) : GicSt :=
  registerIrq u false (registerIrq timerIrqNum true gicReset)

/-- The vGIC states reachable from the constructed VMM by any interleaving of
guest enable/disable distributor writes, IRQ injections and
maintenance-interrupt handling (with host-controlled `gic_misr`/`gic_eisr`). -/
inductive GicReach (u : Nat) : GicSt → Prop where
  | init : GicReach u (initGic u)
  | enable : ∀ s irq, GicReach u s → GicReach u (enableIrq irq s).1
  | disable : ∀ s irq, GicReach u s → GicReach u (disableIrq irq s).1
  | inject : ∀ s irq, GicReach u s → GicReach u (injectIrq irq s).1
  | maintenance : ∀ s m e, GicReach u s →
      GicReach u (handleEoi { s with misr := m, eisr := e }).1

/-- The number of list registers whose virtual-id field holds `irq`. -/
def countHolding (s : GicSt) (irq : Nat) : Nat :=
  (if virtId (s.lr 0) = irq then 1 else 0) +
  (if virtId (s.lr 1) = irq then 1 else 0) +
  (if virtId (s.lr 2) = irq then 1 else 0) +
  (if virtId (s.lr 3) = irq then 1 else 0)

/-! ### Bit-level helpers for the `elrsr0` mask -/

lemma testBit_one_shift (j k : Nat) : (1 <<< j).testBit k = (j == k) := by
  rw [Nat.one_shiftLeft]
  rcases eq_or_ne j k with h | h
  · subst h
    simp [Nat.testBit_two_pow_self]
  · rw [Nat.testBit_two_pow_of_ne h]
    exact (beq_eq_false_iff_ne.mpr h).symm

lemma bitTest_eq_testBit (x k : Nat) : ((x &&& (1 <<< k)) != 0) = x.testBit k := by
  rw [Nat.one_shiftLeft, Nat.and_two_pow]
  cases h : x.testBit k <;> simp [h, (Nat.two_pow_pos k).ne']

lemma bitTest_or (x j k : Nat) :
    (((x ||| (1 <<< j)) &&& (1 <<< k)) != 0) = (((x &&& (1 <<< k)) != 0) || (j == k)) := by
  rw [bitTest_eq_testBit, bitTest_eq_testBit, Nat.testBit_or, testBit_one_shift]

lemma bitTest_clear (x j k : Nat) (hj : j < 32) (hk : k < 32) :
    (((x &&& (4294967295 ^^^ (1 <<< j))) &&& (1 <<< k)) != 0) =
      (((x &&& (1 <<< k)) != 0) && !(j == k)) := by
  rw [bitTest_eq_testBit, bitTest_eq_testBit, Nat.testBit_and, Nat.testBit_xor,
      testBit_one_shift, show (4294967295 : Nat) = 2 ^ 32 - 1 by norm_num,
      Nat.testBit_two_pow_sub_one]
  simp [hk]

/-! ### List-register counting helpers -/

lemma virtId_mkLr (irq : Nat) (e : Bool) (h : irq ≤ 1023) : virtId (mkLr irq e) = irq := by
  unfold virtId mkLr
  apply Nat.eq_of_testBit_eq
  intro i
  simp only [Nat.testBit_and, Nat.testBit_or, Nat.testBit_shiftLeft, testBit_one_shift,
    show (1023 : Nat) = 2 ^ 10 - 1 by norm_num, Nat.testBit_two_pow_sub_one]
  by_cases hi : i < 10
  · have d10 : decide (10 ≤ i) = false := decide_eq_false (by omega)
    have d28 : decide (28 ≤ i) = false := decide_eq_false (by omega)
    simp [hi, d10, d28]
  · have hlt : irq < 2 ^ i := lt_of_le_of_lt h (by
      calc (1023 : Nat) < 2 ^ 10 := by norm_num
      _ ≤ 2 ^ i := Nat.pow_le_pow_right (by norm_num) (by omega))
    simp [hi, Nat.testBit_lt_two_pow hlt]

lemma countHolding_congr {s s' : GicSt} (h : s'.lr = s.lr) (irq : Nat) :
    countHolding s' irq = countHolding s irq := by
  unfold countHolding
  rw [h]

lemma countHolding_update_le (s : GicSt) (j : Fin 4) (v t : Nat) (hv : virtId v ≠ t) :
    countHolding { s with lr := Function.update s.lr j v } t ≤ countHolding s t := by
  unfold countHolding
  fin_cases j <;> simp [Function.update_apply, hv] <;> split_ifs <;> omega

lemma countHolding_update_of_zero (s : GicSt) (j : Fin 4) (v t : Nat)
    (h0 : countHolding s t = 0) :
    countHolding { s with lr := Function.update s.lr j v } t ≤ 1 := by
  unfold countHolding at h0 ⊢
  fin_cases j <;> simp [Function.update_apply] <;> split_ifs at h0 ⊢ <;> omega

lemma countHolding_eq_zero (s : GicSt) (irq : Nat) (hpos : 1 ≤ irq)
    (hded : ∀ k : Fin 4, lrFree s k = false → virtId (s.lr k) ≠ irq)
    (hfz : ∀ k : Fin 4, lrFree s k = true → s.lr k = 0) :
    countHolding s irq = 0 := by
  have key : ∀ k : Fin 4, virtId (s.lr k) ≠ irq := by
    intro k
    cases hf : lrFree s k with
    | false => exact hded k hf
    | true =>
        rw [hfz k hf]
        show virtId 0 ≠ irq
        rw [show virtId 0 = 0 from rfl]
        omega
  unfold countHolding
  rw [if_neg (key 0), if_neg (key 1), if_neg (key 2), if_neg (key 3)]

/-! ### The inductive vGIC invariant behind claim C2 -/

/-- Inductive invariant of the vGIC: free list registers are zeroed, every
nonzero virtual id occupies at most one list register, `eoi` is only set for
nonzero IRQs, and owned IRQs are in bounds. -/
structure GicInv (s : GicSt) : Prop where
  freeZero : ∀ j : Fin 4, lrFree s j = true → s.lr j = 0
  atMostOne : ∀ irq, 1 ≤ irq → countHolding s irq ≤ 1
  eoiPos : ∀ irq, s.eoi irq = true → 1 ≤ irq
  devBound : ∀ irq, s.hasDevice irq = true → irq ≤ maxIrq

lemma gicInv_of_fields {s s' : GicSt} (h : GicInv s)
    (hlr : s'.lr = s.lr) (he : s'.elrsr0 = s.elrsr0)
    (heoi : s'.eoi = s.eoi) (hdev : s'.hasDevice = s.hasDevice) : GicInv s' := by
  constructor
  · intro j hj
    rw [hlr]
    apply h.freeZero j
    unfold lrFree at hj ⊢
    rwa [he] at hj
  · intro irq hirq
    rw [countHolding_congr hlr]
    exact h.atMostOne irq hirq
  · intro irq hq
    rw [heoi] at hq
    exact h.eoiPos irq hq
  · intro irq hq
    rw [hdev] at hq
    exact h.devBound irq hq

lemma fin4_lt_32 (j : Fin 4) : j.val < 32 := Nat.lt_trans j.isLt (by norm_num)

lemma gicInv_writeSlot {s : GicSt} (h : GicInv s) (j : Fin 4) (irq : Nat) (e : Bool)
    (hirq : irq ≤ 1023)
    (hded : ∀ k : Fin 4, lrFree s k = false → virtId (s.lr k) ≠ irq) :
    GicInv { s with elrsr0 := s.elrsr0 &&& (4294967295 ^^^ (1 <<< j.val)),
                    lr := Function.update s.lr j (mkLr irq e) } := by
  refine ⟨?_, ?_, h.eoiPos, h.devBound⟩
  · intro k hk
    unfold lrFree at hk
    dsimp only at hk
    rw [bitTest_clear _ _ _ (fin4_lt_32 j) (fin4_lt_32 k), Bool.and_eq_true] at hk
    obtain ⟨h1, h2⟩ := hk
    have hjk : j ≠ k := by
      intro he
      rw [he] at h2
      simp at h2
    show Function.update s.lr j (mkLr irq e) k = 0
    rw [Function.update_noteq (Ne.symm hjk)]
    exact h.freeZero k (by unfold lrFree; exact h1)
  · intro t ht
    by_cases hv : virtId (mkLr irq e) = t
    · have hti : t = irq := by rw [← hv, virtId_mkLr irq e hirq]
      rw [hti] at ht
      have h0 : countHolding s irq = 0 :=
        countHolding_eq_zero s irq ht hded h.freeZero
      calc countHolding _ t
          = countHolding { s with lr := Function.update s.lr j (mkLr irq e) } t :=
            countHolding_congr rfl t
        _ ≤ 1 := by
            rw [hti]
            exact countHolding_update_of_zero s j (mkLr irq e) irq h0
    · calc countHolding _ t
          = countHolding { s with lr := Function.update s.lr j (mkLr irq e) } t :=
            countHolding_congr rfl t
        _ ≤ countHolding s t := countHolding_update_le s j (mkLr irq e) t hv
        _ ≤ 1 := h.atMostOne t ht

lemma gicInv_clearSlot {s : GicSt} (h : GicInv s) (j : Fin 4) :
    GicInv { s with lr := Function.update s.lr j 0,
                    elrsr0 := s.elrsr0 ||| (1 <<< j.val) } := by
  refine ⟨?_, ?_, h.eoiPos, h.devBound⟩
  · intro k hk
    by_cases hjk : k = j
    · subst hjk
      show Function.update s.lr k 0 k = 0
      rw [Function.update_same]
    · show Function.update s.lr j 0 k = 0
      rw [Function.update_noteq hjk]
      unfold lrFree at hk
      dsimp only at hk
      rw [bitTest_or] at hk
      have hv : (j.val == k.val) = false :=
        beq_eq_false_iff_ne.mpr (fun hh => hjk (Fin.ext hh.symm))
      rw [hv, Bool.or_false] at hk
      exact h.freeZero k (by unfold lrFree; exact hk)
  · intro t ht
    have hv : virtId 0 ≠ t := by
      rw [show virtId 0 = 0 from rfl]
      omega
    calc countHolding _ t
        = countHolding { s with lr := Function.update s.lr j 0 } t :=
          countHolding_congr rfl t
      _ ≤ countHolding s t := countHolding_update_le s j 0 t hv
      _ ≤ 1 := h.atMostOne t ht

lemma gicInv_eoiStep {s : GicSt} (h : GicInv s) (j : Fin 4) : GicInv (eoiStep j s).1 := by
  unfold eoiStep
  split
  · exact h
  · dsimp only
    split
    · exact h
    · dsimp only
      apply gicInv_of_fields (gicInv_clearSlot h j) <;> (split <;> rfl)

lemma gicInv_eoiLoop (l : List (Fin 4)) {s : GicSt} (h : GicInv s) :
    GicInv (eoiLoop l s).1 := by
  induction l generalizing s with
  | nil => exact h
  | cons j js ih =>
    unfold eoiLoop bindE
    rcases he : eoiStep j s with ⟨s1, o⟩
    have h1 : GicInv s1 := by
      have := gicInv_eoiStep h j
      rwa [he] at this
    cases o with
    | none => exact ih h1
    | some e => exact h1

lemma gicInv_handleEoi {s : GicSt} (h : GicInv s) : GicInv (handleEoi s).1 := by
  unfold handleEoi
  split
  · exact h
  · rcases hl : eoiLoop [0, 1, 2, 3] s with ⟨s1, o⟩
    have h1 : GicInv s1 := by
      have := gicInv_eoiLoop [0, 1, 2, 3] h
      rwa [hl] at this
    cases o with
    | none => exact gicInv_of_fields h1 rfl rfl rfl rfl
    | some e => exact h1

lemma gicInv_injectLow {s : GicSt} (h : GicInv s) (irq : Nat) (e : Bool)
    (hirq : irq ≤ 1023) : GicInv (injectLow irq e s).1 := by
  unfold injectLow
  dsimp only
  set s1 := if irq == timerIrqNum then { s with timerIrq := false } else s with hs1
  have h1 : GicInv s1 := by
    rw [hs1]
    split
    · exact gicInv_of_fields h rfl rfl rfl rfl
    · exact h
  split
  · exact h1
  · rename_i hany
    split
    · rename_i j hfind
      have hded : ∀ k : Fin 4, lrFree s1 k = false → virtId (s1.lr k) ≠ irq := by
        intro k hk hvv
        exact absurd (List.any_eq_true.mpr ⟨k, List.mem_finRange k, by simp [hk, hvv]⟩) hany
      exact gicInv_writeSlot h1 j irq e hirq hded
    · exact h1

lemma gicInv_enableIrq {s : GicSt} (h : GicInv s) (irq : Nat) :
    GicInv (enableIrq irq s).1 := by
  unfold enableIrq
  split
  · exact h
  split
  · exact h
  dsimp only
  split <;> exact gicInv_of_fields h rfl rfl rfl rfl

lemma gicInv_disableIrq {s : GicSt} (h : GicInv s) (irq : Nat) :
    GicInv (disableIrq irq s).1 := by
  unfold disableIrq
  split
  · exact h
  split
  · exact h
  dsimp only
  split <;> exact gicInv_of_fields h rfl rfl rfl rfl

lemma gicInv_injectIrq {s : GicSt} (h : GicInv s) (irq : Nat) :
    GicInv (injectIrq irq s).1 := by
  unfold injectIrq
  split
  · exact h
  split
  · exact h
  rename_i hdev hpend
  have hdev' : s.hasDevice irq = true := by
    revert hdev
    cases s.hasDevice irq <;> simp
  have hirq : irq ≤ 1023 := le_trans (h.devBound irq hdev') (by decide)
  dsimp only
  set s1 := if s.eoi irq then { s with cpuPending := Function.update s.cpuPending irq true } else s
    with hs1
  have h1 : GicInv s1 := by
    rw [hs1]
    split
    · exact gicInv_of_fields h rfl rfl rfl rfl
    · exact h
  split
  · exact h1
  · rcases hlow : injectLow irq (s1.eoi irq) s1 with ⟨s2, o⟩
    have h2 : GicInv s2 := by
      have := gicInv_injectLow h1 irq (s1.eoi irq) hirq
      rwa [hlow] at this
    cases o with
    | none => exact gicInv_of_fields h2 rfl rfl rfl rfl
    | some e => exact h2

lemma gicInv_init (u : Nat) (hu : u ≤ maxIrq) : GicInv (initGic u) := by
  constructor
  · intro j _
    rfl
  · intro irq hirq
    have h0 : countHolding (initGic u) irq = 0 := by
      have hfree : ∀ k : Fin 4, lrFree (initGic u) k = true := by
        intro k
        have he : (initGic u).elrsr0 = 15 := rfl
        unfold lrFree
        rw [he]
        fin_cases k <;> decide
      apply countHolding_eq_zero _ _ hirq
      · intro k hk
        rw [hfree k] at hk
        exact Bool.noConfusion hk
      · intro k _
        rfl
    omega
  · intro irq hq
    unfold initGic registerIrq gicReset at hq
    dsimp only at hq
    rw [Function.update_apply, Function.update_apply] at hq
    split_ifs at hq with h1 h2
    subst h2
    decide
  · intro irq hq
    unfold initGic registerIrq gicReset at hq
    dsimp only at hq
    rw [Function.update_apply, Function.update_apply] at hq
    split_ifs at hq with h1 h2
    · subst h1
      exact hu
    · subst h2
      decide
    · exact le_trans (of_decide_eq_true hq) (by decide)

/-! ### Frame and effect lemmas for `eoiStep`, used by claims C2 and C4 -/

lemma eoiStep_eisr (j : Fin 4) (s : GicSt) : (eoiStep j s).1.eisr = s.eisr := by
  unfold eoiStep
  split
  · rfl
  · dsimp only
    split
    · rfl
    · dsimp only
      split <;> rfl

lemma eoiStep_misr (j : Fin 4) (s : GicSt) : (eoiStep j s).1.misr = s.misr := by
  unfold eoiStep
  split
  · rfl
  · dsimp only
    split
    · rfl
    · dsimp only
      split <;> rfl

lemma eoiStep_distr (j : Fin 4) (s : GicSt) :
    (eoiStep j s).1.distrEnabled = s.distrEnabled := by
  unfold eoiStep
  split
  · rfl
  · dsimp only
    split
    · rfl
    · dsimp only
      split <;> rfl

lemma eoiStep_lr_ne (j k : Fin 4) (s : GicSt) (h : k ≠ j) :
    (eoiStep j s).1.lr k = s.lr k := by
  unfold eoiStep
  split
  · rfl
  · dsimp only
    split
    · rfl
    · dsimp only
      split <;> exact Function.update_noteq h 0 s.lr

lemma eoiStep_elrsr_mono (j : Fin 4) (s : GicSt) (b : Nat)
    (h : s.elrsr0.testBit b = true) : (eoiStep j s).1.elrsr0.testBit b = true := by
  unfold eoiStep
  split
  · exact h
  · dsimp only
    split
    · exact h
    · dsimp only
      split <;> (show (s.elrsr0 ||| 1 <<< j.val).testBit b = true
                 rw [Nat.testBit_or, h]
                 rfl)

lemma eoiStep_pending_mono (j : Fin 4) (s : GicSt) (t : Nat)
    (h : s.cpuPending t = false) : (eoiStep j s).1.cpuPending t = false := by
  unfold eoiStep
  split
  · exact h
  · dsimp only
    split
    · exact h
    · dsimp only
      split <;>
        (show Function.update s.cpuPending (virtId (s.lr j)) false t = false
         rw [Function.update_apply]
         split <;> simp [h])

lemma eoiStep_timer_mono (j : Fin 4) (s : GicSt)
    (h : s.timerIrq = true) : (eoiStep j s).1.timerIrq = true := by
  unfold eoiStep
  split
  · exact h
  · dsimp only
    split
    · exact h
    · dsimp only
      split
      · rfl
      · exact h

lemma eoiStep_err_none (j : Fin 4) (s : GicSt)
    (hb : s.eisr &&& (1 <<< j.val) ≠ 0 → virtId (s.lr j) ≤ maxIrq) :
    (eoiStep j s).2 = none := by
  unfold eoiStep
  split
  · rfl
  · rename_i hbit
    have hbit' : s.eisr &&& (1 <<< j.val) ≠ 0 := by
      intro hz
      exact hbit (by rw [hz]; rfl)
    have hv := hb hbit'
    dsimp only
    rw [if_neg (by omega : ¬ maxIrq < virtId (s.lr j))]

lemma eoiStep_done (j : Fin 4) (s : GicSt)
    (h : s.eisr &&& (1 <<< j.val) ≠ 0) (hb : virtId (s.lr j) ≤ maxIrq) :
    (eoiStep j s).1.lr j = 0 ∧
    (eoiStep j s).1.elrsr0.testBit j.val = true ∧
    (eoiStep j s).1.cpuPending (virtId (s.lr j)) = false ∧
    (virtId (s.lr j) = timerIrqNum → s.distrEnabled timerIrqNum = true →
       (eoiStep j s).1.timerIrq = true) := by
  unfold eoiStep
  rw [if_neg (by simp [h] : ¬ ((s.eisr &&& 1 <<< j.val == 0) = true))]
  dsimp only
  rw [if_neg (by omega : ¬ maxIrq < virtId (s.lr j))]
  dsimp only
  refine ⟨?_, ?_, ?_, ?_⟩
  · split <;> exact Function.update_same j 0 s.lr
  · split <;>
      (show (s.elrsr0 ||| 1 <<< j.val).testBit j.val = true
       rw [Nat.testBit_or, testBit_one_shift]
       simp)
  · split <;> rw [Function.update_same]
  · intro hv hd
    rw [if_pos (by rw [hv, hd]; simp : (virtId (s.lr j) == timerIrqNum &&
          s.distrEnabled timerIrqNum) = true)]

/-- Full characterisation of the `_handle_eoi` loop over a duplicate-free
list of indices whose flagged entries carry in-bounds virtual ids. -/
lemma eoiLoop_spec (l : List (Fin 4)) (s : GicSt) (hnd : l.Nodup)
    (hb : ∀ j ∈ l, s.eisr &&& (1 <<< j.val) ≠ 0 → virtId (s.lr j) ≤ maxIrq) :
    (eoiLoop l s).2 = none ∧
    (eoiLoop l s).1.misr = s.misr ∧
    (eoiLoop l s).1.eisr = s.eisr ∧
    (eoiLoop l s).1.distrEnabled = s.distrEnabled ∧
    (∀ j : Fin 4, j ∉ l → (eoiLoop l s).1.lr j = s.lr j) ∧
    (∀ b, s.elrsr0.testBit b = true → (eoiLoop l s).1.elrsr0.testBit b = true) ∧
    (∀ t, s.cpuPending t = false → (eoiLoop l s).1.cpuPending t = false) ∧
    (s.timerIrq = true → (eoiLoop l s).1.timerIrq = true) ∧
    (∀ j ∈ l, s.eisr &&& (1 <<< j.val) ≠ 0 →
       (eoiLoop l s).1.lr j = 0 ∧
       (eoiLoop l s).1.elrsr0.testBit j.val = true ∧
       (eoiLoop l s).1.cpuPending (virtId (s.lr j)) = false ∧
       (virtId (s.lr j) = timerIrqNum → s.distrEnabled timerIrqNum = true →
          (eoiLoop l s).1.timerIrq = true)) := by
  induction l generalizing s with
  | nil =>
      refine ⟨rfl, rfl, rfl, rfl, fun j _ => rfl, fun b h => h, fun t h => h,
              fun h => h, fun j hj => absurd hj (List.not_mem_nil j)⟩
  | cons j0 js ih =>
    obtain ⟨hj0, hjs⟩ := List.nodup_cons.mp hnd
    have hstep2 : (eoiStep j0 s).2 = none :=
      eoiStep_err_none j0 s (fun hh => hb j0 (List.mem_cons_self j0 js) hh)
    rcases he : eoiStep j0 s with ⟨s1, o⟩
    have ho : o = none := by
      rw [he] at hstep2
      exact hstep2
    subst ho
    have hL : eoiLoop (j0 :: js) s = eoiLoop js s1 := by
      show bindE (eoiStep j0 s) (eoiLoop js) = eoiLoop js s1
      rw [he]
      rfl
    have heisr1 : s1.eisr = s.eisr := by
      have := eoiStep_eisr j0 s
      rwa [he] at this
    have hmisr1 : s1.misr = s.misr := by
      have := eoiStep_misr j0 s
      rwa [he] at this
    have hdistr1 : s1.distrEnabled = s.distrEnabled := by
      have := eoiStep_distr j0 s
      rwa [he] at this
    have hlr1 : ∀ k : Fin 4, k ≠ j0 → s1.lr k = s.lr k := by
      intro k hk
      have := eoiStep_lr_ne j0 k s hk
      rwa [he] at this
    have hel1 : ∀ b, s.elrsr0.testBit b = true → s1.elrsr0.testBit b = true := by
      intro b hbd
      have := eoiStep_elrsr_mono j0 s b hbd
      rwa [he] at this
    have hpend1 : ∀ t, s.cpuPending t = false → s1.cpuPending t = false := by
      intro t htd
      have := eoiStep_pending_mono j0 s t htd
      rwa [he] at this
    have htim1 : s.timerIrq = true → s1.timerIrq = true := by
      intro htd
      have := eoiStep_timer_mono j0 s htd
      rwa [he] at this
    have hb1 : ∀ k ∈ js, s1.eisr &&& (1 <<< k.val) ≠ 0 → virtId (s1.lr k) ≤ maxIrq := by
      intro k hk hbit
      rw [heisr1] at hbit
      have hkj : k ≠ j0 := fun hh => hj0 (hh ▸ hk)
      rw [hlr1 k hkj]
      exact hb k (List.mem_cons_of_mem j0 hk) hbit
    obtain ⟨ih1, ih2, ih3, ih4, ih5, ih6, ih7, ih8, ih9⟩ := ih s1 hjs hb1
    rw [hL]
    refine ⟨ih1, ih2.trans hmisr1, ih3.trans heisr1, ih4.trans hdistr1, ?_, ?_, ?_, ?_, ?_⟩
    · intro j hj
      have hjj0 : j ≠ j0 := fun hh => hj (hh ▸ List.mem_cons_self j0 js)
      have hjjs : j ∉ js := fun hh => hj (List.mem_cons_of_mem j0 hh)
      rw [ih5 j hjjs, hlr1 j hjj0]
    · intro b hbd
      exact ih6 b (hel1 b hbd)
    · intro t htd
      exact ih7 t (hpend1 t htd)
    · intro htd
      exact ih8 (htim1 htd)
    · intro j hj hbit
      rcases List.mem_cons.mp hj with hjeq | hjmem
      · subst hjeq
        obtain ⟨d1, d2, d3, d4⟩ :=
          eoiStep_done j s hbit (hb j (List.mem_cons_self j js) hbit)
        rw [he] at d1 d2 d3 d4
        refine ⟨?_, ?_, ?_, ?_⟩
        · rw [ih5 j hj0, d1]
        · exact ih6 _ d2
        · exact ih7 _ d3
        · intro hv hd
          exact ih8 (d4 hv hd)
      · have hjj0 : j ≠ j0 := fun hh => hj0 (hh ▸ hjmem)
        have hbit1 : s1.eisr &&& (1 <<< j.val) ≠ 0 := by
          rw [heisr1]
          exact hbit
        obtain ⟨m1, m2, m3, m4⟩ := ih9 j hjmem hbit1
        rw [hlr1 j hjj0] at m3 m4
        refine ⟨m1, m2, m3, ?_⟩
        intro hv hd
        exact m4 hv (by rw [hdistr1]; exact hd)

lemma gicInv_reach {u : Nat} (hu : u ≤ maxIrq) {s : GicSt} (hs : GicReach u s) :
    GicInv s := by
  induction hs with
  | init => exact gicInv_init u hu
  | enable s irq _ ih => exact gicInv_enableIrq ih irq
  | disable s irq _ ih => exact gicInv_disableIrq ih irq
  | inject s irq _ ih => exact gicInv_injectIrq ih irq
  | maintenance s m e _ ih =>
      exact gicInv_handleEoi (gicInv_of_fields ih rfl rfl rfl rfl)

/-! ### Claim C2 -/

/-- The vGIC state after injecting the virtual-timer IRQ into the freshly
constructed VMM, whose distributor state for IRQ 27 is still DISABLED:
`inject_irq` marks the IRQ PENDING (because `eoi` is set) before the
distributor check drops the injection, so no list register is written. -/
def c2CexSt : GicSt := (injectIrq timerIrqNum (initGic 37)).1

/-- C2 (counterexample).  The claim says that for an IRQ registered with
`eoi == true`, `cpu_state == PENDING` implies exactly one list register holds
its virtual id.  Injecting the registered timer IRQ while its distributor
state is DISABLED (the state right after construction) sets
`cpu_state = PENDING` and then returns before touching the list registers, so
the IRQ is PENDING while zero list registers hold virtual id 27. -/
theorem C2_counterexample :
    GicReach 37 c2CexSt ∧
    c2CexSt.eoi 27 = true ∧
    c2CexSt.cpuPending 27 = true ∧
    countHolding c2CexSt 27 = 0 :=
  ⟨GicReach.inject _ _ GicReach.init, by decide, by decide, by decide⟩

/-- C2 (amended).  For every IRQ registered with `eoi == true`, across any
sequence of enable/disable, `inject_irq` and maintenance-interrupt handling,
whenever `cpu_state == PENDING` at most one list register holds its virtual
id (exactly one cannot be guaranteed: an injection that is dropped because
the distributor is disabled, or that finds the list registers full, leaves
the IRQ PENDING with no list register holding it). -/
theorem C2_pending_lr_at_most_one (u : Nat) (hu : u ≤ maxIrq) (s : GicSt)
    (hs : GicReach u s) (irq : Nat) (he : s.eoi irq = true)
    (_hp : s.cpuPending irq = true) :
    countHolding s irq ≤ 1 :=
  (gicInv_reach hu hs).atMostOne irq ((gicInv_reach hu hs).eoiPos irq he)

theorem C2_pending_lr_at_most_one_witness :
    countHolding c2CexSt 27 ≤ 1 :=
  C2_pending_lr_at_most_one 37 (by decide) c2CexSt
    (GicReach.inject _ _ GicReach.init) 27 (by decide) (by decide)

/-! ### Claim C3 -/

/-- A vGIC state with the virtual-timer IRQ registered (`eoi`), distributor
ENABLED, cpu-inactive, `timer_irq` raised, and list register 0 occupied by
virtual id 27 (`elrsr0 = 0b1110`). -/
def c3CexSt : GicSt where
  lr := fun j => if j = 0 then mkLr 27 true else 0
  elrsr0 := 14
  misr := 0
  eisr := 0
  timerIrq := true
  vmActive := true
  cpuPending := fun _ => false
  distrEnabled := fun i => i == 27
  eoi := fun i => i == 27
  hasDevice := fun i => decide (i ≤ 15) || (i == 27)

/-- C3 (counterexample).  The claim says a dedup hit returns "with no state
change".  Injecting the registered, distributor-enabled timer IRQ while a
list register already holds virtual id 27 does change state: `timer_irq` is
cleared (main.cc:708-709) and, `eoi` being set, `cpu_state` goes PENDING
(main.cc:875-876) before the dedup scan returns. -/
theorem C3_counterexample :
    c3CexSt.hasDevice 27 = true ∧
    c3CexSt.distrEnabled 27 = true ∧
    lrFree c3CexSt 0 = false ∧
    virtId (c3CexSt.lr 0) = 27 ∧
    (injectIrq 27 c3CexSt).2 = none ∧
    c3CexSt.timerIrq = true ∧
    (injectIrq 27 c3CexSt).1.timerIrq = false ∧
    c3CexSt.cpuPending 27 = false ∧
    (injectIrq 27 c3CexSt).1.cpuPending 27 = true := by
  decide

/-- C3 (amended).  `_inject_irq` first clears `state.timer_irq` when the IRQ
is the virtual timer; then: a dedup hit on an occupied list register returns
without touching the list registers or `gic_elrsr0`; otherwise if no free
list-register bit is set in `gic_elrsr0` it fails with ListRegistersFull;
otherwise the first free list register is written with virtual-id = irq,
physical-id = `eoi ? 1<<9 : 0`, priority 0, state pending, and its `elrsr0`
bit is cleared. -/
theorem C3_inject_lr_arbitration (s : GicSt) (irq : Nat) (e : Bool) :
    ((∃ k : Fin 4, lrFree s k = false ∧ virtId (s.lr k) = irq) →
        injectLow irq e s =
          (if irq == timerIrqNum then { s with timerIrq := false } else s, none)) ∧
    ((∀ k : Fin 4, lrFree s k = false → virtId (s.lr k) ≠ irq) →
        ((∀ k : Fin 4, lrFree s k = false) →
            injectLow irq e s =
              (if irq == timerIrqNum then { s with timerIrq := false } else s,
               some .listRegistersFull)) ∧
        (∀ j : Fin 4, (List.finRange 4).find? (fun k => lrFree s k) = some j →
            injectLow irq e s =
              ({ (if irq == timerIrqNum then { s with timerIrq := false } else s) with
                   elrsr0 := s.elrsr0 &&& (4294967295 ^^^ (1 <<< j.val)),
                   lr := Function.update s.lr j (mkLr irq e) }, none))) := by
  unfold injectLow
  dsimp only
  set s1 := if irq == timerIrqNum then { s with timerIrq := false } else s with hs1
  have hlr : s1.lr = s.lr := by
    rw [hs1]
    split <;> rfl
  have hel : s1.elrsr0 = s.elrsr0 := by
    rw [hs1]
    split <;> rfl
  have hfr : ∀ k : Fin 4, lrFree s1 k = lrFree s k := by
    intro k
    unfold lrFree
    rw [hel]
  constructor
  · rintro ⟨k, hk1, hk2⟩
    have hany : (List.finRange 4).any
        (fun j => !(lrFree s1 j) && (virtId (s1.lr j) == irq)) = true :=
      List.any_eq_true.mpr ⟨k, List.mem_finRange k, by rw [hfr k, hk1, hlr, hk2]; simp⟩
    rw [if_pos hany]
  · intro hded
    have hany : (List.finRange 4).any
        (fun j => !(lrFree s1 j) && (virtId (s1.lr j) == irq)) = false := by
      cases hbv : (List.finRange 4).any
          (fun j => !(lrFree s1 j) && (virtId (s1.lr j) == irq)) with
      | false => rfl
      | true =>
          exfalso
          obtain ⟨k, -, hk⟩ := List.any_eq_true.mp hbv
          rw [Bool.and_eq_true] at hk
          obtain ⟨hk1, hk2⟩ := hk
          have hk1' : lrFree s1 k = false := by
            revert hk1
            cases lrFree s1 k <;> simp
          rw [hfr k] at hk1'
          have hk2' : virtId (s.lr k) = irq := by
            rw [← hlr]
            exact eq_of_beq hk2
          exact hded k hk1' hk2'
    rw [if_neg (by rw [hany]; exact Bool.false_ne_true)]
    constructor
    · intro hfull
      have hfind : (List.finRange 4).find? (fun k => lrFree s1 k) = none := by
        rw [List.find?_eq_none]
        intro k _
        rw [hfr k, hfull k]
        exact Bool.false_ne_true
      rw [hfind]
    · intro j hfind
      have hfind' : (List.finRange 4).find? (fun k => lrFree s1 k) = some j := by
        have : (fun k : Fin 4 => lrFree s1 k) = (fun k : Fin 4 => lrFree s k) :=
          funext hfr
        rw [this]
        exact hfind
      rw [hfind', hel, hlr]

/-- The vGIC state after guest-enabling the timer IRQ on the constructed
VMM: registered, distributor ENABLED, all list registers free. -/
def c3WitSt : GicSt := (enableIrq 27 (initGic 37)).1

theorem C3_inject_lr_arbitration_witness :
    injectLow 27 true c3WitSt =
      ({ (if (27 : Nat) == timerIrqNum then { c3WitSt with timerIrq := false }
          else c3WitSt) with
           elrsr0 := c3WitSt.elrsr0 &&& (4294967295 ^^^ (1 <<< ((0 : Fin 4)).val)),
           lr := Function.update c3WitSt.lr 0 (mkLr 27 true) }, none) :=
  ((C3_inject_lr_arbitration c3WitSt 27 true).2 (by decide)).2 0 (by decide)

/-! ### Claim C4 -/

/-- C4.  When `gic_misr & 1` holds and every `gic_eisr`-flagged list register
carries an in-bounds virtual id, `_handle_eoi` completes without error,
clears `gic_misr`, and for every flagged bit i: `gic_lr[i]` is zeroed, bit i
of `gic_elrsr0` is set, that virtual id's `cpu_state` becomes INACTIVE, and
if the id is the virtual-timer IRQ with distributor state still ENABLED,
`state.timer_irq` is raised. -/
theorem C4_handle_eoi (s : GicSt) (hm : s.misr &&& 1 = 1)
    (hb : ∀ j : Fin 4, s.eisr &&& (1 <<< j.val) ≠ 0 → virtId (s.lr j) ≤ maxIrq) :
    (handleEoi s).2 = none ∧
    (handleEoi s).1.misr = 0 ∧
    (∀ j : Fin 4, s.eisr &&& (1 <<< j.val) ≠ 0 →
       (handleEoi s).1.lr j = 0 ∧
       (handleEoi s).1.elrsr0.testBit j.val = true ∧
       (handleEoi s).1.cpuPending (virtId (s.lr j)) = false ∧
       (virtId (s.lr j) = timerIrqNum → s.distrEnabled timerIrqNum = true →
          (handleEoi s).1.timerIrq = true)) := by
  have hnd : ([0, 1, 2, 3] : List (Fin 4)).Nodup := by decide
  obtain ⟨h1, h2, h3, h4, h5, h6, h7, h8, h9⟩ :=
    eoiLoop_spec [0, 1, 2, 3] s hnd (fun j _ => hb j)
  unfold handleEoi
  rw [if_neg (by rw [hm]; decide)]
  rcases hl : eoiLoop [0, 1, 2, 3] s with ⟨s1, o⟩
  rw [hl] at h1 h2 h9
  subst h1
  dsimp only
  refine ⟨rfl, rfl, ?_⟩
  intro j hbit
  have hjmem : j ∈ ([0, 1, 2, 3] : List (Fin 4)) := by
    fin_cases j <;> decide
  obtain ⟨m1, m2, m3, m4⟩ := h9 j hjmem hbit
  exact ⟨m1, m2, m3, m4⟩

/-- A vGIC state matching spec scenario 4: IRQ 27 injected with `eoi` in
slot 0, still distributor-enabled, and a maintenance interrupt with
`misr = 1`, `eisr = 0b1`. -/
def c4WitSt : GicSt where
  lr := fun j => if j = 0 then mkLr 27 true else 0
  elrsr0 := 14
  misr := 1
  eisr := 1
  timerIrq := false
  vmActive := true
  cpuPending := fun i => i == 27
  distrEnabled := fun i => i == 27
  eoi := fun i => i == 27
  hasDevice := fun i => decide (i ≤ 15) || (i == 27)

theorem C4_handle_eoi_witness :
    (handleEoi c4WitSt).2 = none ∧
    (handleEoi c4WitSt).1.misr = 0 ∧
    (handleEoi c4WitSt).1.lr 0 = 0 ∧
    (handleEoi c4WitSt).1.elrsr0.testBit 0 = true ∧
    (handleEoi c4WitSt).1.cpuPending 27 = false ∧
    (handleEoi c4WitSt).1.timerIrq = true := by
  obtain ⟨h1, h2, h3⟩ := C4_handle_eoi c4WitSt (by decide) (by decide)
  obtain ⟨m1, m2, m3, m4⟩ := h3 0 (by decide)
  rw [show virtId (c4WitSt.lr 0) = 27 from by decide] at m3 m4
  exact ⟨h1, h2, m1, m2, m3, m4 rfl (by decide)⟩

/-! ## Stage-2 data abort routing (claim C5)

`Vmm::_handle_data_abort` (main.cc:1282-1291) computes
`ipa = (uint64_t)hpfar << 8` and walks `_device_tree` via
`Device::find_by_addr` (main.cc:621-628), which returns the device whose
`[addr, addr+size)` range contains the address.  The tree built by the `Vmm`
constructor (main.cc:1338-1340) holds the Gic at `0x2c001000` (size
`0x2000`), the System_register block at `0x1c010000` (size `0x1000`) and the
Pl011 at `0x1c090000` (size `0x1000`); the Generic_timer is never inserted.
The ranges are disjoint, so the AVL walk is modelled as a scan. -/

/-- The devices held by `Vmm::_device_tree`. -/
inductive DeviceId where
  | gic : DeviceId
  | sysRegs : DeviceId
  | uart : DeviceId
deriving DecidableEq, Repr

/-- `Device::find_by_addr` over the constructed device tree: the unique
device whose `[addr, addr+size)` range contains `a`. -/
def findDevice (a : Nat) : Option DeviceId :=
  if 0x2c001000 ≤ a ∧ a < 0x2c001000 + 0x2000 then some .gic
  else if 0x1c010000 ≤ a ∧ a < 0x1c010000 + 0x1000 then some .sysRegs
  else if 0x1c090000 ≤ a ∧ a < 0x1c090000 + 0x1000 then some .uart
  else none

/-- `Vmm::_handle_data_abort` up to the hand-off: the device receiving
`handle_memory_access(state)`, or the "No device at IPA" error.  `hpfar` is
a 32-bit state field; the C code widens it to 64 bits before the shift and
never consults `hdfar` for the lookup. -/
def handleDataAbort (hpfar hdfar : Nat) : Except VmmError DeviceId :=
  match findDevice ((hpfar % 2 ^ 32) <<< 8) with
  | none => .error .noDeviceAtIpa
  | some d => .ok d

/-- Modelled from the spec: the claim's IPA formula
`(hpfar << 8) | (hdfar & 0xFFF)`. -/
def claimIpa (hpfar hdfar : Nat) : Nat :=
  ((hpfar % 2 ^ 32) <<< 8) ||| ((hdfar % 2 ^ 32) &&& 0xfff)

lemma orLow_div (a d : Nat) (hd : d < 4096) : (a ||| d) / 4096 = a / 4096 := by
  have h1 : (a ||| d) >>> 12 = a >>> 12 := by
    apply Nat.eq_of_testBit_eq
    intro i
    rw [Nat.testBit_shiftRight, Nat.testBit_shiftRight, Nat.testBit_or]
    have h4096 : (4096 : ℕ) ≤ 2 ^ (12 + i) := by
      calc (4096 : ℕ) = 2 ^ 12 := by norm_num
      _ ≤ 2 ^ (12 + i) := Nat.pow_le_pow_right (by norm_num) (by omega)
    have hdi : d.testBit (12 + i) = false :=
      Nat.testBit_lt_two_pow (lt_of_lt_of_le hd h4096)
    rw [hdi, Bool.or_false]
  rw [Nat.shiftRight_eq_div_pow, Nat.shiftRight_eq_div_pow] at h1
  exact_mod_cast h1

lemma findDevice_orLow (a d : Nat) (hd : d < 4096) :
    findDevice (a ||| d) = findDevice a := by
  have hdiv := orLow_div a d hd
  unfold findDevice
  have c1 : (0x2c001000 ≤ a ||| d ∧ a ||| d < 0x2c001000 + 0x2000) ↔
      (0x2c001000 ≤ a ∧ a < 0x2c001000 + 0x2000) := by omega
  have c2 : (0x1c010000 ≤ a ||| d ∧ a ||| d < 0x1c010000 + 0x1000) ↔
      (0x1c010000 ≤ a ∧ a < 0x1c010000 + 0x1000) := by omega
  have c3 : (0x1c090000 ≤ a ||| d ∧ a ||| d < 0x1c090000 + 0x1000) ↔
      (0x1c090000 ≤ a ∧ a < 0x1c090000 + 0x1000) := by omega
  simp only [c1, c2, c3]

/-- C5.  On a Stage-2 data abort, the handler locates exactly the device
whose range contains the claim's IPA `(hpfar << 8) | (hdfar & 0xFFF)` and
hands the state to it, failing with "No device at IPA" iff no device range
contains that IPA.  (The code looks up `hpfar << 8` alone; because every
device range in the tree is 4-KiB-aligned, OR-ing in the low `hdfar` bits
can never change the containing device.) -/
theorem C5_data_abort_route (hpfar hdfar : Nat) :
    (∀ d : DeviceId, handleDataAbort hpfar hdfar = .ok d ↔
        findDevice (claimIpa hpfar hdfar) = some d) ∧
    (handleDataAbort hpfar hdfar = .error .noDeviceAtIpa ↔
        findDevice (claimIpa hpfar hdfar) = none) := by
  have hlow : (hdfar % 2 ^ 32) &&& 0xfff < 4096 :=
    lt_of_le_of_lt (Nat.and_le_right) (by norm_num)
  have hkey : findDevice (claimIpa hpfar hdfar) =
      findDevice ((hpfar % 2 ^ 32) <<< 8) := by
    unfold claimIpa
    exact findDevice_orLow _ _ hlow
  unfold handleDataAbort
  rw [hkey]
  rcases findDevice ((hpfar % 2 ^ 32) <<< 8) with _ | d
  · exact ⟨fun d => by simp, by simp⟩
  · exact ⟨fun d' => by simp, by simp⟩

theorem C5_data_abort_route_witness :
    handleDataAbort 0x2c0010 0x123 = .ok DeviceId.gic :=
  ((C5_data_abort_route 0x2c0010 0x123).1 DeviceId.gic).mpr (by decide)

/-! ## CP15 register file (claims C6, C7)

Embedding of `class Coprocessor` / `class Cp15` (main.cc:309-502).  The
guest-visible state is the CP15 mirror fields of `State` plus `hsr`, `ip`
and the general-purpose register file; `r` holds the values reached through
the `State::r` accessor (whose banked resolution is modelled separately for
claim C1). -/

/-- The 27 `State` fields backing the CP15 registers. -/
inductive Cp15Field where
  | midr | mpidr | ctr | ccsidr | clidr | pfr0 | mmfr0 | isar0 | isar3 | isar4
  | csselr | sctrl | actrl | cpacr | ttbr0 | ttbr1 | ttbcr | dacr
  | dfsr | ifsr | adfsr | aifsr | dfar | ifar | prrr | nmrr | cidr
deriving DecidableEq, Repr

structure Cp15St where
  hsr : Nat
  ip : Nat
  r : Nat → Nat
  midr : Nat
  mpidr : Nat
  ctr : Nat
  ccsidr : Nat
  clidr : Nat
  pfr0 : Nat
  mmfr0 : Nat
  isar0 : Nat
  isar3 : Nat
  isar4 : Nat
  csselr : Nat
  sctrl : Nat
  actrl : Nat
  cpacr : Nat
  ttbr0 : Nat
  ttbr1 : Nat
  ttbcr : Nat
  dacr : Nat
  dfsr : Nat
  ifsr : Nat
  adfsr : Nat
  aifsr : Nat
  dfar : Nat
  ifar : Nat
  prrr : Nat
  nmrr : Nat
  cidr : Nat

/-- `Register::read` field selector (main.cc:382-383). -/
def getF : Cp15Field → Cp15St → Nat
  | .midr, s => s.midr
  | .mpidr, s => s.mpidr
  | .ctr, s => s.ctr
  | .ccsidr, s => s.ccsidr
  | .clidr, s => s.clidr
  | .pfr0, s => s.pfr0
  | .mmfr0, s => s.mmfr0
  | .isar0, s => s.isar0
  | .isar3, s => s.isar3
  | .isar4, s => s.isar4
  | .csselr, s => s.csselr
  | .sctrl, s => s.sctrl
  | .actrl, s => s.actrl
  | .cpacr, s => s.cpacr
  | .ttbr0, s => s.ttbr0
  | .ttbr1, s => s.ttbr1
  | .ttbcr, s => s.ttbcr
  | .dacr, s => s.dacr
  | .dfsr, s => s.dfsr
  | .ifsr, s => s.ifsr
  | .adfsr, s => s.adfsr
  | .aifsr, s => s.aifsr
  | .dfar, s => s.dfar
  | .ifar, s => s.ifar
  | .prrr, s => s.prrr
  | .nmrr, s => s.nmrr
  | .cidr, s => s.cidr

/-- `Register::write` field selector (main.cc:379-380). -/
def setF : Cp15Field → Nat → Cp15St → Cp15St
  | .midr, v, s => { s with midr := v }
  | .mpidr, v, s => { s with mpidr := v }
  | .ctr, v, s => { s with ctr := v }
  | .ccsidr, v, s => { s with ccsidr := v }
  | .clidr, v, s => { s with clidr := v }
  | .pfr0, v, s => { s with pfr0 := v }
  | .mmfr0, v, s => { s with mmfr0 := v }
  | .isar0, v, s => { s with isar0 := v }
  | .isar3, v, s => { s with isar3 := v }
  | .isar4, v, s => { s with isar4 := v }
  | .csselr, v, s => { s with csselr := v }
  | .sctrl, v, s => { s with sctrl := v }
  | .actrl, v, s => { s with actrl := v }
  | .cpacr, v, s => { s with cpacr := v }
  | .ttbr0, v, s => { s with ttbr0 := v }
  | .ttbr1, v, s => { s with ttbr1 := v }
  | .ttbcr, v, s => { s with ttbcr := v }
  | .dacr, v, s => { s with dacr := v }
  | .dfsr, v, s => { s with dfsr := v }
  | .ifsr, v, s => { s with ifsr := v }
  | .adfsr, v, s => { s with adfsr := v }
  | .aifsr, v, s => { s with aifsr := v }
  | .dfar, v, s => { s with dfar := v }
  | .ifar, v, s => { s with ifar := v }
  | .prrr, v, s => { s with prrr := v }
  | .nmrr, v, s => { s with nmrr := v }
  | .cidr, v, s => { s with cidr := v }

/-- A CP15 register descriptor: encoding key, writable flag, backing field,
reset value — the constructor arguments of `Coprocessor::Register`
(main.cc:355-363). -/
structure Cp15Desc where
  enc : Nat
  writable : Bool
  field : Cp15Field
  init : Nat
deriving DecidableEq, Repr

/-- `Iss::value` (main.cc:322-331): place `crn`/`op1`/`crm`/`op2` at their
ISS bit positions (each `Bitfield::set` masks to the field width). -/
def issValue (crn op1 crm op2 : Nat) : Nat :=
  ((crn &&& 15) <<< 10) ||| ((crm &&& 15) <<< 1) |||
  ((op1 &&& 7) <<< 14) ||| ((op2 &&& 7) <<< 17)

/-- `Iss::mask_encoding` (main.cc:333-339). -/
def issMaskEncoding (v : Nat) : Nat :=
  (v &&& 0x1e) ||| (v &&& 0x3c00) ||| (v &&& 0x1c000) ||| (v &&& 0xe0000)

/-- `Iss::Direction::get` (bit 0 of the HSR). -/
def issDirection (v : Nat) : Nat := v &&& 1

/-- `Iss::Register::get` (bits 5..8 of the HSR). -/
def issRegister (v : Nat) : Nat := (v >>> 5) &&& 15

/-- The 27 registers `_regs_0 .. _regs_26` of `class Cp15`
(main.cc:436-462), in source order, with their reset values. -/
def cp15Regs : List Cp15Desc :=
  [ ⟨issValue 0 0 0 0, false, .midr, 0x412fc0f1⟩,
    ⟨issValue 0 0 0 5, false, .mpidr, 0x40000000⟩,
    ⟨issValue 0 0 0 1, false, .ctr, 0x8444c004⟩,
    ⟨issValue 0 1 0 0, false, .ccsidr, 0x701fe00a⟩,
    ⟨issValue 0 1 0 1, false, .clidr, 0x0a200023⟩,
    ⟨issValue 0 0 1 0, false, .pfr0, 0x00001031⟩,
    ⟨issValue 0 0 1 4, false, .mmfr0, 0x10201105⟩,
    ⟨issValue 0 0 2 0, false, .isar0, 0x02101110⟩,
    ⟨issValue 0 0 2 3, false, .isar3, 0x11112131⟩,
    ⟨issValue 0 0 2 4, false, .isar4, 0x10011142⟩,
    ⟨issValue 0 2 0 0, true, .csselr, 0x00000000⟩,
    ⟨issValue 1 0 0 0, true, .sctrl, 0⟩,
    ⟨issValue 1 0 0 1, true, .actrl, 0x00000040⟩,
    ⟨issValue 1 0 0 2, true, .cpacr, 0x00000000⟩,
    ⟨issValue 2 0 0 0, true, .ttbr0, 0x00000000⟩,
    ⟨issValue 2 0 0 1, true, .ttbr1, 0x00000000⟩,
    ⟨issValue 2 0 0 2, true, .ttbcr, 0x00000000⟩,
    ⟨issValue 3 0 0 0, true, .dacr, 0x55555555⟩,
    ⟨issValue 5 0 0 0, true, .dfsr, 0x00000000⟩,
    ⟨issValue 5 0 0 1, true, .ifsr, 0x00000000⟩,
    ⟨issValue 5 0 1 0, true, .adfsr, 0x00000000⟩,
    ⟨issValue 5 0 1 1, true, .aifsr, 0x00000000⟩,
    ⟨issValue 6 0 0 0, true, .dfar, 0x00000000⟩,
    ⟨issValue 6 0 0 2, true, .ifar, 0x00000000⟩,
    ⟨issValue 10 0 2 0, true, .prrr, 0x00098aa4⟩,
    ⟨issValue 10 0 2 1, true, .nmrr, 0x44e048e0⟩,
    ⟨issValue 13 0 0 1, true, .cidr, 0x00000000⟩ ]

/-- The AVL lookup `Register::find_by_encoding` (main.cc:370-377): exact
match on the masked encoding; encodings are pairwise distinct, so a list
scan finds the same register. -/
def cp15Find (e : Nat) : Option Cp15Desc :=
  cp15Regs.find? (fun d => d.enc == e)

/-- The `Cp15` constructor (main.cc:464-501): every register's reset value
is written into its backing state field.  (`Register::write` casts through
`uint32_t`; every reset value above is already below `2^32`, so the cast is
the identity and is dropped here.) -/
def cp15Init (s : Cp15St) : Cp15St :=
  cp15Regs.foldl (fun s d => setF d.field d.init s) s

/-- `Coprocessor::handle_trap` (main.cc:398-428).  Unknown encoding: log and
return false.  Read: write the backing field into `r[Iss::Register]`.
Write to a non-writable register: log and return false; otherwise store
`(uint32_t)r[Iss::Register]` into the backing field.  On success the guest
PC advances by 4. -/
def cp15HandleTrap (s : Cp15St) : Bool × Cp15St :=
  match cp15Find (issMaskEncoding s.hsr) with
  | none => (false, s)
  | some d =>
    if issDirection s.hsr ≠ 0 then
      let s1 := { s with r := Function.update s.r (issRegister s.hsr) (getF d.field s) }
      (true, { s1 with ip := s1.ip + 4 })
    else if d.writable = false then (false, s)
    else
      let s1 := setF d.field (s.r (issRegister s.hsr) &&& 0xffffffff) s
      (true, { s1 with ip := s1.ip + 4 })

/-- The `Hsr::Ec::CP15` arm of `Vmm::_handle_trap` (main.cc:1310-1312): the
boolean returned by `handle_trap` is discarded and no exception is thrown,
so the dispatch always completes without error. -/
def cp15Dispatch (s : Cp15St) : Cp15St × Option VmmError :=
  ((cp15HandleTrap s).2, none)

/-! ### Claim C6 -/

/-- A guest state trapping a CP15 access with `crn = 15`, an encoding
matched by no register in the file, the rest of the state at reset
values. -/
def c6CexSt : Cp15St where
  hsr := 15 <<< 10
  ip := 0x80001000
  r := fun _ => 0
  midr := 0x412fc0f1
  mpidr := 0x40000000
  ctr := 0x8444c004
  ccsidr := 0x701fe00a
  clidr := 0x0a200023
  pfr0 := 0x00001031
  mmfr0 := 0x10201105
  isar0 := 0x02101110
  isar3 := 0x11112131
  isar4 := 0x10011142
  csselr := 0
  sctrl := 0
  actrl := 0x40
  cpacr := 0
  ttbr0 := 0
  ttbr1 := 0
  ttbcr := 0
  dacr := 0x55555555
  dfsr := 0
  ifsr := 0
  adfsr := 0
  aifsr := 0
  dfar := 0
  ifar := 0
  prrr := 0x00098aa4
  nmrr := 0x44e048e0
  cidr := 0

/-- The same guest state attempting a CP15 write (direction bit = 0) to
MIDR (`crn = op1 = crm = op2 = 0`), a non-writable register. -/
def c6CexWrSt : Cp15St := { c6CexSt with hsr := 0 }

/-- C6 (counterexample).  The claim says an unknown CP15 encoding and a
write to a write-protected register both surface as a VmmException aborting
the exit dispatch.  They do not: `handle_trap` merely logs and returns
`false` (main.cc:404-414, 419-423), `_handle_trap` discards that result
(main.cc:1310-1312), and the dispatch completes with no exception — here
both failure inputs yield `(state, none)`, the error component empty and
the state (PC included) unchanged. -/
theorem C6_counterexample :
    cp15Find (issMaskEncoding c6CexSt.hsr) = none ∧
    cp15Dispatch c6CexSt = (c6CexSt, none) ∧
    issDirection c6CexWrSt.hsr = 0 ∧
    (cp15Find (issMaskEncoding c6CexWrSt.hsr)).map (fun d => d.writable) =
      some false ∧
    cp15Dispatch c6CexWrSt = (c6CexWrSt, none) := by
  have hf : cp15Find (issMaskEncoding c6CexSt.hsr) = none := by decide
  have hf2 : cp15Find (issMaskEncoding c6CexWrSt.hsr) =
      some ⟨issValue 0 0 0 0, false, .midr, 0x412fc0f1⟩ := by decide
  refine ⟨hf, ?_, by decide, by rw [hf2]; rfl, ?_⟩
  · unfold cp15Dispatch cp15HandleTrap
    rw [hf]
  · unfold cp15Dispatch cp15HandleTrap
    rw [hf2]
    dsimp only
    rw [if_neg (by decide : ¬ (issDirection c6CexWrSt.hsr ≠ 0)), if_pos rfl]

/-- C6 (amended).  When the masked HSR encoding matches no register, and
when the trap is a write to a register with `writable == false`,
`handle_trap` logs the failure and returns `false` with the guest state —
the PC included — unchanged, and the CP15 arm of the exit dispatch completes
normally without raising any exception. -/
theorem C6_cp15_failure_no_exception (s : Cp15St) :
    (cp15Find (issMaskEncoding s.hsr) = none →
       cp15HandleTrap s = (false, s) ∧ cp15Dispatch s = (s, none)) ∧
    (∀ d : Cp15Desc, cp15Find (issMaskEncoding s.hsr) = some d →
       issDirection s.hsr = 0 → d.writable = false →
       cp15HandleTrap s = (false, s) ∧ cp15Dispatch s = (s, none)) := by
  constructor
  · intro hf
    unfold cp15Dispatch cp15HandleTrap
    rw [hf]
    exact ⟨rfl, rfl⟩
  · intro d hf hdir hw
    unfold cp15Dispatch cp15HandleTrap
    rw [hf]
    dsimp only
    rw [if_neg (by omega : ¬ (issDirection s.hsr ≠ 0)), if_pos hw]
    exact ⟨rfl, rfl⟩

theorem C6_cp15_failure_no_exception_witness :
    cp15HandleTrap c6CexSt = (false, c6CexSt) ∧
    cp15Dispatch c6CexSt = (c6CexSt, none) :=
  (C6_cp15_failure_no_exception c6CexSt).1 (by decide)

/-! ### Claim C7 -/

/-- One guest step as seen by the CP15 file: between traps the guest may put
arbitrary values in the trapped-instruction syndrome and the general-purpose
registers, then the trap is handled. -/
def cp15GuestStep (s : Cp15St) (hsr : Nat) (r : Nat → Nat) : Cp15St :=
  (cp15HandleTrap { s with hsr := hsr, r := r }).2

/-- CP15 states reachable from construction through any sequence of guest
CP15 traps. -/
inductive Cp15Reach : Cp15St → Prop where
  | init : ∀ s, Cp15Reach (cp15Init s)
  | step : ∀ s hsr r, Cp15Reach s → Cp15Reach (cp15GuestStep s hsr r)

lemma cp15HandleTrap_preserves_ro (s : Cp15St) :
    (cp15HandleTrap s).2.midr = s.midr ∧
    (cp15HandleTrap s).2.mpidr = s.mpidr ∧
    (cp15HandleTrap s).2.ctr = s.ctr ∧
    (cp15HandleTrap s).2.ccsidr = s.ccsidr ∧
    (cp15HandleTrap s).2.clidr = s.clidr ∧
    (cp15HandleTrap s).2.pfr0 = s.pfr0 ∧
    (cp15HandleTrap s).2.mmfr0 = s.mmfr0 ∧
    (cp15HandleTrap s).2.isar0 = s.isar0 ∧
    (cp15HandleTrap s).2.isar3 = s.isar3 ∧
    (cp15HandleTrap s).2.isar4 = s.isar4 := by
  unfold cp15HandleTrap
  rcases hf : cp15Find (issMaskEncoding s.hsr) with _ | d
  · exact ⟨rfl, rfl, rfl, rfl, rfl, rfl, rfl, rfl, rfl, rfl⟩
  · have hmem : d ∈ cp15Regs := List.mem_of_find?_eq_some hf
    dsimp only
    split
    · exact ⟨rfl, rfl, rfl, rfl, rfl, rfl, rfl, rfl, rfl, rfl⟩
    · split
      · exact ⟨rfl, rfl, rfl, rfl, rfl, rfl, rfl, rfl, rfl, rfl⟩
      · rename_i hdir hw
        have hwt : d.writable = true := by
          revert hw
          cases d.writable <;> simp
        fin_cases hmem <;>
          first
            | exact absurd hwt (by decide)
            | exact ⟨rfl, rfl, rfl, rfl, rfl, rfl, rfl, rfl, rfl, rfl⟩

/-- C7.  Every CP15 register with `writable == false` (MIDR, MPIDR, CTR,
CCSIDR, CLIDR, PFR0, MMFR0, ISAR0, ISAR3, ISAR4) still holds the reset value
written at construction after any sequence of guest CP15 traps: the write
path refuses non-writable registers and no other path touches the backing
fields. -/
theorem C7_nonwritable_keep_reset (s : Cp15St) (hs : Cp15Reach s) :
    s.midr = 0x412fc0f1 ∧ s.mpidr = 0x40000000 ∧ s.ctr = 0x8444c004 ∧
    s.ccsidr = 0x701fe00a ∧ s.clidr = 0x0a200023 ∧ s.pfr0 = 0x00001031 ∧
    s.mmfr0 = 0x10201105 ∧ s.isar0 = 0x02101110 ∧ s.isar3 = 0x11112131 ∧
    s.isar4 = 0x10011142 := by
  induction hs with
  | init s =>
      exact ⟨rfl, rfl, rfl, rfl, rfl, rfl, rfl, rfl, rfl, rfl⟩
  | step s hsr r _ ih =>
      obtain ⟨i1, i2, i3, i4, i5, i6, i7, i8, i9, i10⟩ := ih
      obtain ⟨p1, p2, p3, p4, p5, p6, p7, p8, p9, p10⟩ :=
        cp15HandleTrap_preserves_ro { s with hsr := hsr, r := r }
      exact ⟨p1.trans i1, p2.trans i2, p3.trans i3, p4.trans i4, p5.trans i5,
             p6.trans i6, p7.trans i7, p8.trans i8, p9.trans i9, p10.trans i10⟩

/-- An arbitrary pre-construction state. -/
def c7WitBase : Cp15St where
  hsr := 0
  ip := 0
  r := fun _ => 0
  midr := 0
  mpidr := 0
  ctr := 0
  ccsidr := 0
  clidr := 0
  pfr0 := 0
  mmfr0 := 0
  isar0 := 0
  isar3 := 0
  isar4 := 0
  csselr := 0
  sctrl := 0
  actrl := 0
  cpacr := 0
  ttbr0 := 0
  ttbr1 := 0
  ttbcr := 0
  dacr := 0
  dfsr := 0
  ifsr := 0
  adfsr := 0
  aifsr := 0
  dfar := 0
  ifar := 0
  prrr := 0
  nmrr := 0
  cidr := 0

theorem C7_nonwritable_keep_reset_witness :
    (cp15GuestStep (cp15Init c7WitBase) 0 (fun _ => 0xdeadbeef)).midr =
      0x412fc0f1 :=
  (C7_nonwritable_keep_reset _
    (Cp15Reach.step _ 0 (fun _ => 0xdeadbeef) (Cp15Reach.init c7WitBase))).1

/-! ## Generic timer (claim C8) -/

/-- The guest timer fields of the shared CPU state. -/
structure TimerSt where
  ctrl : Nat
  val : Nat
deriving DecidableEq, Repr

/-- `Generic_timer::schedule_timeout` (main.cc:936-940): unless
`(timer_ctrl & 0b101) == 0b101`, arm the host one-shot
(`trigger_once`) for `timer_val / 24` microseconds. -/
def scheduleTimeout (t : TimerSt) : Option Nat :=
  if t.ctrl &&& 0b101 ≠ 0b101 then some (t.val / 24) else none

/-- `Generic_timer::_timeout` (main.cc:912-917): on host-timer fire set
`timer_ctrl = 5`, `timer_val = 0xffffffff`, then inject the virtual-timer
IRQ into the vGIC. -/
def timerFire (t : TimerSt) (g : GicSt) : TimerSt × (GicSt × Option VmmError) :=
  ({ ctrl := 5, val := 0xffffffff }, injectIrq timerIrqNum g)

/-- C8.  `schedule_timeout` arms the host one-shot timer for
`timer_val / 24` microseconds iff `(timer_ctrl & 0b101) != 0b101`, and the
host-timer handler sets `timer_ctrl = 5`, `timer_val = 0xFFFFFFFF` and
injects the virtual-timer IRQ into the vGIC. -/
theorem C8_timer_contract :
    (∀ t : TimerSt,
       (t.ctrl &&& 0b101 ≠ 0b101 ↔ scheduleTimeout t = some (t.val / 24)) ∧
       (t.ctrl &&& 0b101 = 0b101 ↔ scheduleTimeout t = none)) ∧
    (∀ (t : TimerSt) (g : GicSt),
       (timerFire t g).1.ctrl = 5 ∧
       (timerFire t g).1.val = 0xffffffff ∧
       (timerFire t g).2 = injectIrq timerIrqNum g) := by
  constructor
  · intro t
    by_cases h : t.ctrl &&& 0b101 = 0b101 <;> simp [scheduleTimeout, h]
  · intro t g
    exact ⟨rfl, rfl, rfl⟩

theorem C8_timer_contract_witness :
    scheduleTimeout ⟨0, 48⟩ = some 2 :=
  ((C8_timer_contract.1 ⟨0, 48⟩).1).mp (by decide)

/-! ## PL011 UART reads (claim C9) -/

/-- The Pl011 internal state: the RX ring buffer (modelled as the FIFO list
of buffered bytes, oldest first) and the stored registers
(main.cc:1124-1130). -/
structure UartSt where
  rx : List Nat
  ibrd : Nat
  fbrd : Nat
  lcrH : Nat
  imsc : Nat
  ris : Nat
  cr : Nat
deriving DecidableEq, Repr

/-- `Pl011::_get_char` (main.cc:1136-1140): 0 on an empty ring buffer, else
dequeue the oldest byte. -/
def uartGetChar (s : UartSt) : Nat × UartSt :=
  match s.rx with
  | [] => (0, s)
  | c :: cs => (c, { s with rx := cs })

/-- `Pl011::_get` (main.cc:1142-1164): the register-read switch; `none` is
the `Wrong_offset` throw. -/
def uartGet (s : UartSt) (off : Nat) : Option (Nat × UartSt) :=
  if off = 0x0 then some (uartGetChar s)
  else if off = 0xfe0 then some (0x11, s)
  else if off = 0xfe4 then some (0x10, s)
  else if off = 0xfe8 then some (0x14, s)
  else if off = 0xfec then some (0x0, s)
  else if off = 0xff0 then some (0xd, s)
  else if off = 0xff4 then some (0xf0, s)
  else if off = 0xff8 then some (0x5, s)
  else if off = 0xffc then some (0xb1, s)
  else if off = 0x18 then some (if s.rx = [] then 16 else 64, s)
  else if off = 0x30 then some (s.cr, s)
  else if off = 0x38 then some (s.imsc, s)
  else if off = 0x40 then some (s.ris &&& s.imsc, s)
  else if off = 0x28 then some (s.fbrd, s)
  else if off = 0x24 then some (s.ibrd, s)
  else if off = 0x2c then some (s.lcrH, s)
  else none

/-- A sequence of guest register reads, collecting the returned values. -/
def uartReadSeq (s : UartSt) : List Nat → Option (List Nat)
  | [] => some []
  | off :: offs =>
    match uartGet s off with
    | none => none
    | some (v, s') =>
      match uartReadSeq s' offs with
      | none => none
      | some vs => some (v :: vs)

/-- The UART state after the terminal delivered "OK" (`'O' = 79`,
`'K' = 75` appended to the RX ring buffer by `Pl011::_read`,
main.cc:1184-1196). -/
def uartOkSt : UartSt where
  rx := [79, 75]
  ibrd := 0
  fbrd := 0
  lcrH := 0
  imsc := 0b1111
  ris := 1 <<< 4
  cr := 0x300

/-- C9.  Reading DR dequeues one byte (0 when empty), reading FR yields 16
when the RX buffer is empty and 64 otherwise; with "OK" buffered, the read
sequence FR, DR, FR, DR, FR yields 64, 'O', 64, 'K', 16. -/
theorem C9_uart_dr_fr (s : UartSt) :
    (s.rx = [] → uartGet s 0 = some (0, s)) ∧
    (∀ c cs, s.rx = c :: cs → uartGet s 0 = some (c, { s with rx := cs })) ∧
    (uartGet s 0x18 = some ((if s.rx = [] then 16 else 64), s)) ∧
    (uartReadSeq uartOkSt [0x18, 0x0, 0x18, 0x0, 0x18] =
       some [64, 79, 64, 75, 16]) := by
  refine ⟨?_, ?_, ?_, by decide⟩
  · intro h
    simp [uartGet, uartGetChar, h]
  · intro c cs h
    simp [uartGet, uartGetChar, h]
  · simp [uartGet]

theorem C9_uart_dr_fr_witness :
    uartGet uartOkSt 0 = some (79, { uartOkSt with rx := [75] }) :=
  (C9_uart_dr_fr uartOkSt).2.1 79 [75] rfl

/-! ## WFI/WFE trap handling (claim C10) -/

/-- The state seen by `Vmm::_handle_wfi`: the syndrome and PC, the VCPU
activity flag (`Vm::_active`), the guest timer fields, and the host one-shot
arming (`armed` records the microseconds of the last `trigger_once`). -/
structure WfiSt where
  hsr : Nat
  ip : Nat
  active : Bool
  timerCtrl : Nat
  timerVal : Nat
  armed : Option Nat
deriving DecidableEq, Repr

/-- `Hsr::Ec::get` — bits 26..31 of the HSR (main.cc:296-307). -/
def hsrEc (v : Nat) : Nat := (v >>> 26) &&& 63

/-- `Vmm::_handle_wfi` (main.cc:1293-1301): `hsr & 1` (a WFE) throws "WFE
not implemented yet" before any mutation; otherwise the VCPU is halted
(`wait_for_interrupt`), the timer armed via `schedule_timeout`, and the PC
advanced by 4. -/
def handleWfi (s : WfiSt) : WfiSt × Option VmmError :=
  if s.hsr &&& 1 ≠ 0 then (s, some .wfeNotImplemented)
  else
    let s1 := { s with active := false }
    let s2 := { s1 with armed :=
      match scheduleTimeout ⟨s1.timerCtrl, s1.timerVal⟩ with
      | some us => some us
      | none => s1.armed }
    ({ s2 with ip := s2.ip + 4 }, none)

/-- C10.  A trap with exception class WFI (0x1) whose HSR has bit 0 set (a
WFE) raises the VmmException before halting the VCPU, arming the timer or
advancing the PC: the returned state is unchanged — the VCPU stays active,
the host timer unarmed, the guest PC where it was. -/
theorem C10_wfe_exception (s : WfiSt) (hec : hsrEc s.hsr = 1)
    (hwfe : s.hsr &&& 1 = 1) :
    handleWfi s = (s, some .wfeNotImplemented) ∧
    (handleWfi s).1.active = s.active ∧
    (handleWfi s).1.ip = s.ip ∧
    (handleWfi s).1.armed = s.armed := by
  have h : s.hsr &&& 1 ≠ 0 := by omega
  unfold handleWfi
  rw [if_pos h]
  exact ⟨rfl, rfl, rfl, rfl⟩

/-- A VCPU state trapped on a WFE instruction: EC = 1, ISS bit 0 set. -/
def c10WitSt : WfiSt where
  hsr := (1 <<< 26) ||| 1
  ip := 0x80008000
  active := true
  timerCtrl := 0
  timerVal := 1000
  armed := none

theorem C10_wfe_exception_witness :
    handleWfi c10WitSt = (c10WitSt, some .wfeNotImplemented) :=
  (C10_wfe_exception c10WitSt (by decide) (by decide)).1

end Vmm
